import Mathlib

/-!
Verification development for the plugin sandbox host of `aeris`
(`src/adapters/wasm/`): capability validator (`host.rs`), ABI fat
pointers (`memory.rs`), host function surface (`host_functions.rs`),
adapter facade (`adapter.rs`) and plugin discovery (`manifest.rs`).

Strings are modelled by their character lists (`List Char`); Unix path
semantics (`std::path::Path` components, `starts_with`, `join`) are
embedded directly from the Rust standard library behaviour the code
relies on.  Impure inputs (the `HOME` environment variable, `which`
lookup, wasmtime instantiation, linear-memory reads, the network) are
passed explicitly as parameters/oracles.
-/

namespace Aeris

/-- Decidable equality for `Except`, so that validator outcomes on
concrete inputs can be settled by `decide`. -/
instance exceptDecEq {ε α : Type} [DecidableEq ε] [DecidableEq α] :
    DecidableEq (Except ε α) := fun x y =>
  match x, y with
  | Except.ok a, Except.ok b =>
    if h : a = b then isTrue (by rw [h]) else isFalse (by simp [h])
  | Except.error a, Except.error b =>
    if h : a = b then isTrue (by rw [h]) else isFalse (by simp [h])
  | Except.ok _, Except.error _ => isFalse (by simp)
  | Except.error _, Except.ok _ => isFalse (by simp)

/-- A path segment: the characters between two `/` separators. -/
abbrev Seg := List Char

/-- Split a character list at every `'/'`; mirrors how `std::path`
tokenises a Unix path.  Always returns at least one (possibly empty)
segment, and `intercalate "/"` of the result restores the input. -/
def splitSlash : List Char → List Seg
  | [] => [[]]
  | c :: rest =>
    match splitSlash rest with
    | [] => [[]]
    | seg :: segs =>
      if c = '/' then [] :: seg :: segs else (c :: seg) :: segs

/-- The non-empty segments of a path string (empty segments produced by
repeated or leading/trailing separators are dropped, as Rust's
`Components` iterator does). -/
def pathSegs (s : List Char) : List Seg :=
  (splitSlash s).filter (fun g => g ≠ [])

/-- One normalized component of a Unix path, as produced by Rust's
`std::path::Components`. -/
inductive Component where
  | rootDir : Component
  | curDir : Component
  | parentDir : Component
  | normal : Seg → Component
deriving DecidableEq, Repr

/-- Whether the path string denotes an absolute Unix path
(`Path::is_absolute` / `has_root` on Unix: a leading `/`). -/
def isAbsolute (s : List Char) : Bool :=
  match s with
  | '/' :: _ => true
  | _ => false

/-- Classify one non-`"."` segment (`".."` is `ParentDir`, the rest are
`Normal`). -/
def segComp (g : Seg) : Component :=
  if g = ['.', '.'] then Component.parentDir else Component.normal g

/-- The non-`"."` segments of a path, classified; the shared tail of
the normalized component list. -/
def componentsBody (s : List Char) : List Component :=
  ((pathSegs s).filter (fun g => g ≠ ['.'])).map segComp

/-- The normalized component list of a path string, following Rust's
`std::path::Components` on Unix: a root component for absolute paths,
empty segments dropped, `"."` segments dropped except a leading one
(kept as `CurDir`), `".."` segments kept as `ParentDir`. -/
def components (s : List Char) : List Component :=
  if isAbsolute s then
    Component.rootDir :: componentsBody s
  else
    match pathSegs s with
    | g :: _ =>
      if g = ['.'] then Component.curDir :: componentsBody s
      else componentsBody s
    | [] => componentsBody s

/-- Rust `Path::starts_with`: `base` is a whole-component prefix of `p`. -/
def pathStartsWith (p base : List Char) : Bool :=
  (components base).isPrefixOf (components p)

/-- Rust `Path::join` / `PathBuf::push` on Unix: an absolute argument
replaces the base, otherwise it is appended after a separator. -/
def pathJoin (base p : List Char) : List Char :=
  if isAbsolute p then p else base ++ '/' :: p

/-- Rust `str::contains("..")`: the two-character sequence `..` occurs
somewhere in the string, i.e. `['.', '.']` is an infix of it. -/
def hasDotDot (l : List Char) : Bool := decide (['.', '.'] <:+: l)

/-- Rust `str::strip_prefix`: remove `pre` from the front of `s` when it is
a prefix, otherwise `none`. -/
def stripPrefixStr (pre s : List Char) : Option (List Char) :=
  match pre, s with
  | [], s => some s
  | _ :: _, [] => none
  | p :: ps, c :: cs => if p = c then stripPrefixStr ps cs else none

/-- Rust `Path::file_name`: the last component when it is a `Normal`
segment, else `none` (root, `.` and `..` have no file name). -/
def file_name (s : List Char) : Option Seg :=
  match (components s).getLast? with
  | some (Component.normal g) => some g
  | _ => none

/-! ## Capability validator (`src/adapters/wasm/host.rs`, `manifest.rs`) -/

/-- Structure `Permissions` from `manifest.rs`: the per-plugin permission block. -/
structure Permissions where
  network : Bool
  filesystem : List (List Char)
  exec_commands : List (List Char)
deriving DecidableEq, Repr

/-- Structure `HostState` from `host.rs`. -/
structure HostState where
  adapter_id : List Char
  permissions : Permissions
  data_dir : List Char
deriving DecidableEq, Repr

/-- Function `data_dir_for` from `host.rs`: the per-plugin private data
directory, under the home directory when `HOME` is set, else under
`/tmp`.  The `HOME` lookup is passed explicitly as `home`. -/
def data_dir_for (home : Option (List Char)) (adapter_id : List Char) : List Char :=
  let base := match home with
    | some h => pathJoin h (".local/share/aeris/plugin-data".data)
    | none => "/tmp/aeris/plugin-data".data
  pathJoin base adapter_id

/-- Constructor `HostState::new`. -/
def HostState.new (home : Option (List Char)) (adapter_id : List Char)
    (permissions : Permissions) : HostState :=
  { adapter_id := adapter_id
    permissions := permissions
    data_dir := data_dir_for home adapter_id }

/-- The resolution step of `validate_path`: an absolute request is
taken as-is, a relative one is joined onto the plugin's data dir. -/
def resolvePath (st : HostState) (path : List Char) : List Char :=
  if isAbsolute path then path else pathJoin st.data_dir path

/-- Error string `"Path traversal not allowed: {path}"`. -/
def traversalMsg (path : List Char) : List Char :=
  "Path traversal not allowed: ".data ++ path

/-- Error string `"Path not allowed for plugin '{id}': {path}"`. -/
def pathDeniedMsg (adapter_id path : List Char) : List Char :=
  "Path not allowed for plugin '".data ++ adapter_id ++ "': ".data ++ path

/-- Expansion of one permitted filesystem prefix inside
`validate_path`'s loop: a leading `~/` is replaced by the home
directory; when no home directory is available the entry is skipped
(`continue`), modelled as `none`. -/
def expandAllowed (home : Option (List Char)) (allowed : List Char) :
    Option (List Char) :=
  match stripPrefixStr "~/".data allowed with
  | some stripped =>
    match home with
    | some h => some (pathJoin h stripped)
    | none => none
  | none => some allowed

/-- The `for allowed in &self.permissions.filesystem` loop of
`validate_path`: `true` iff some entry expands and is a component
prefix of the resolved path. -/
def fsLoopMatch (home : Option (List Char)) (resolved : List Char) :
    List (List Char) → Bool
  | [] => false
  | allowed :: rest =>
    match expandAllowed home allowed with
    | some allowed_path =>
      pathStartsWith resolved allowed_path || fsLoopMatch home resolved rest
    | none => fsLoopMatch home resolved rest

/-- Function `HostState::validate_path` from `host.rs`: reject any request
containing `".."` as a substring; resolve relative requests against
the data dir; accept anything under the data dir; otherwise scan the
permitted prefixes (expanding a leading `~/` against `home`); deny
naming the plugin id when nothing matches. -/
def validate_path (st : HostState) (home : Option (List Char))
    (path : List Char) : Except (List Char) (List Char) :=
  if hasDotDot path then
    Except.error (traversalMsg path)
  else if pathStartsWith (resolvePath st path) st.data_dir then
    Except.ok (resolvePath st path)
  else if fsLoopMatch home (resolvePath st path) st.permissions.filesystem then
    Except.ok (resolvePath st path)
  else
    Except.error (pathDeniedMsg st.adapter_id path)

/-- Error string `"Command '{basename}' not in allowlist for plugin '{id}'"`. -/
def cmdDeniedMsg (basename adapter_id : List Char) : List Char :=
  "Command '".data ++ basename ++ "' not in allowlist for plugin '".data ++
    adapter_id ++ "'".data

/-- Error string `"Command not found: {basename}"`. -/
def cmdNotFoundMsg (basename : List Char) : List Char :=
  "Command not found: ".data ++ basename

/-- The basename extraction of `validate_command`:
`Path::file_name(...).and_then(to_str).unwrap_or(cmd)`. -/
def basenameOf (cmd : List Char) : List Char :=
  (file_name cmd).getD cmd

/-- Function `HostState::validate_command` from `host.rs`.  `which` is the
impure `which::which` executable search, passed as an oracle. -/
def validate_command (st : HostState)
    (which : List Char → Option (List Char)) (cmd : List Char) :
    Except (List Char) (List Char) :=
  if st.permissions.exec_commands.contains (basenameOf cmd) = false then
    Except.error (cmdDeniedMsg (basenameOf cmd) st.adapter_id)
  else
    match which (basenameOf cmd) with
    | some full_path => Except.ok full_path
    | none => Except.error (cmdNotFoundMsg (basenameOf cmd))

/-- Function `HostState::has_network_permission`. -/
def has_network_permission (st : HostState) : Bool :=
  st.permissions.network

/-! ## ABI fat pointers (`src/adapters/wasm/memory.rs`)

`i64` values are modelled by their 64-bit two's-complement bit
patterns, i.e. naturals below `2^64`; `u32` values by naturals below
`2^32`. -/

/-- The fat-pointer encoding `((w_ptr as i64) << 32) | (w_len as i64)`
used by every host function returning a buffer
(`host_functions.rs:136` and the parallel sites): the two `u32` operands
are zero-extended, so the OR of the disjoint bit ranges is addition of
`ptr * 2^32` and `len` on bit patterns. -/
def encode_fat_ptr (ptr len : Nat) : Nat :=
  ((ptr % 2 ^ 32) * 2 ^ 32 + len % 2 ^ 32) % 2 ^ 64

/-- Function `decode_fat_ptr` from `memory.rs`: `ptr = (val >> 32) as u32`
(arithmetic shift then truncation keeps bits 32–63) and
`len = (val & 0xFFFF_FFFF) as u32` (the low 32 bits). -/
def decode_fat_ptr (val : Nat) : Nat × Nat :=
  ((val / 2 ^ 32) % 2 ^ 32, val % 2 ^ 32)

/-! ## `http_get` host function (`src/adapters/wasm/host_functions.rs`)

`http_get_impl` performs I/O at three points, passed here as explicit
oracles: `readUrl` (fetching the `memory` export and `read_string` of
the URL argument), `net` (the blocking `ureq` GET, including reading
the response body), and `writeBack` (serialising the response and
copying it into guest memory via the `allocate` export).  Alongside
its result the model returns whether the `net` oracle was consulted,
i.e. whether an outbound request was attempted. -/

/-- Response shape of `HttpResponse` in `host_functions.rs`: status and body. -/
structure HttpResponse where
  status : Nat
  body : List Char
deriving DecidableEq, Repr

/-- Error string `"Network access denied for plugin '{id}'"`. -/
def netDeniedMsg (adapter_id : List Char) : List Char :=
  "Network access denied for plugin '".data ++ adapter_id ++ "'".data

/-- Function `http_get_impl`: permission gate first, then URL read, then the
GET, then write-back of the serialised response as a fat pointer.
Second component: whether an outbound request was attempted. -/
def http_get_impl (st : HostState)
    (readUrl : Except (List Char) (List Char))
    (net : List Char → Except (List Char) HttpResponse)
    (writeBack : HttpResponse → Except (List Char) (Nat × Nat)) :
    Except (List Char) Nat × Bool :=
  if has_network_permission st = false then
    (Except.error (netDeniedMsg st.adapter_id), false)
  else
    match readUrl with
    | Except.error e => (Except.error e, false)
    | Except.ok url =>
      match net url with
      | Except.error e => (Except.error e, true)
      | Except.ok resp =>
        match writeBack resp with
        | Except.error e => (Except.error e, true)
        | Except.ok (w_ptr, w_len) =>
          (Except.ok (encode_fat_ptr w_ptr w_len), true)

/-- The registered `host_http_get` wrapper: any error from
`http_get_impl` is logged host-side and the null sentinel `0` is
returned to the guest. -/
def host_http_get (st : HostState)
    (readUrl : Except (List Char) (List Char))
    (net : List Char → Except (List Char) HttpResponse)
    (writeBack : HttpResponse → Except (List Char) (Nat × Nat)) :
    Nat × Bool :=
  match http_get_impl st readUrl net writeBack with
  | (Except.ok fat, attempted) => (fat, attempted)
  | (Except.error _, attempted) => (0, attempted)

/-! ## Adapter facade (`src/adapters/wasm/adapter.rs`, `core/adapter.rs`) -/

/-- Error type `AdapterError` from `core/adapter.rs` (payloads as strings). -/
inductive AdapterError where
  | NotFound : List Char → AdapterError
  | PackageNotFound : List Char → AdapterError
  | PermissionDenied : List Char → AdapterError
  | NetworkError : List Char → AdapterError
  | ParseError : List Char → AdapterError
  | NotSupported : AdapterError
  | PluginError : List Char → AdapterError
  | Io : List Char → AdapterError
  | Other : List Char → AdapterError
deriving DecidableEq, Repr

/-- Error string for a missing typed export in `call_no_args` /
`call_with_json` (`"Missing export '{name}'..."`; the wasmtime error
text appended by the source after the colon is not modelled). -/
def missingExportMsg (export_name : List Char) : List Char :=
  "Missing export '".data ++ export_name ++ "'".data

/-- Function `read_result_json` from `memory.rs`: decode the fat pointer,
treat `(0, 0)` as "returned nothing", else read the string
(`readString` oracle over the linear memory) and parse it (`parse`
oracle standing for `serde_json::from_str`). -/
def read_result_json (T : Type)
    (readString : Nat → Nat → Except (List Char) (List Char))
    (parse : List Char → Except (List Char) T) (fat : Nat) :
    Except (List Char) T :=
  let pl := decode_fat_ptr fat
  if pl.1 = 0 ∧ pl.2 = 0 then
    Except.error "Plugin returned null pointer".data
  else
    match readString pl.1 pl.2 with
    | Except.error e => Except.error e
    | Except.ok json_str => parse json_str

/-- One fresh execution context of a `WasmAdapter` call, with its
impure pieces as oracles: `instantiate` is `fresh_instance` (fuel +
`Linker::instantiate`); `exports` lists the names for which
`get_typed_func` at the expected type succeeds; `call0` / `call2` run
an export (trap messages as errors); `hasMemory` is whether
`get_memory` finds the `memory` export; `readString` / `writeString`
are the `memory.rs` string bridges; `parse` is JSON deserialisation
into the operation's result type. -/
structure ModuleEnv (T : Type) where
  instantiate : Except (List Char) Unit
  exports : List (List Char)
  call0 : List Char → Except (List Char) Nat
  call2 : List Char → Nat × Nat → Except (List Char) Nat
  hasMemory : Bool
  readString : Nat → Nat → Except (List Char) (List Char)
  writeString : List Char → Except (List Char) (Nat × Nat)
  parse : List Char → Except (List Char) T

/-- Method `WasmAdapter::call_no_args`: fresh context, typed-export lookup
(`Missing export` on absence), invoke, fetch memory, read the JSON
result.  Every failure is wrapped in `AdapterError::PluginError`. -/
def call_no_args (T : Type) (env : ModuleEnv T) (export_name : List Char) :
    Except AdapterError T :=
  match env.instantiate with
  | Except.error e => Except.error (AdapterError.PluginError e)
  | Except.ok _ =>
    if export_name ∈ env.exports then
      match env.call0 export_name with
      | Except.error e =>
        Except.error (AdapterError.PluginError
          (export_name ++ " failed: ".data ++ e))
      | Except.ok fat =>
        if env.hasMemory then
          match read_result_json T env.readString env.parse fat with
          | Except.error e => Except.error (AdapterError.PluginError e)
          | Except.ok v => Except.ok v
        else
          Except.error (AdapterError.PluginError
            "Plugin missing 'memory' export".data)
    else
      Except.error (AdapterError.PluginError (missingExportMsg export_name))

/-- Method `WasmAdapter::call_with_json`: like `call_no_args` but the input
JSON (serialisation outcome passed as `input_json`) is written into
guest memory via `allocate` before the typed-export lookup. -/
def call_with_json (T : Type) (env : ModuleEnv T) (export_name : List Char)
    (input_json : Except (List Char) (List Char)) : Except AdapterError T :=
  match env.instantiate with
  | Except.error e => Except.error (AdapterError.PluginError e)
  | Except.ok _ =>
    match input_json with
    | Except.error e =>
      Except.error (AdapterError.PluginError
        ("Failed to serialize input: ".data ++ e))
    | Except.ok j =>
      match env.writeString j with
      | Except.error e => Except.error (AdapterError.PluginError e)
      | Except.ok pl =>
        if export_name ∈ env.exports then
          match env.call2 export_name pl with
          | Except.error e =>
            Except.error (AdapterError.PluginError
              (export_name ++ " failed: ".data ++ e))
          | Except.ok fat =>
            if env.hasMemory then
              match read_result_json T env.readString env.parse fat with
              | Except.error e => Except.error (AdapterError.PluginError e)
              | Except.ok v => Except.ok v
            else
              Except.error (AdapterError.PluginError
                "Plugin missing 'memory' export".data)
        else
          Except.error (AdapterError.PluginError (missingExportMsg export_name))

/-! ## Plugin discovery (`src/adapters/wasm/manifest.rs`) -/

/-- Structure `Capabilities` from `core/capabilities.rs` (all default-false). -/
structure Capabilities where
  can_search : Bool
  can_install : Bool
  can_remove : Bool
  can_update : Bool
  can_list : Bool
  can_sync : Bool
  can_run : Bool
  can_add_repo : Bool
  can_remove_repo : Bool
  can_list_repos : Bool
  has_profiles : Bool
  has_groups : Bool
  has_dependencies : Bool
  has_size_info : Bool
  has_package_detail : Bool
  supports_dry_run : Bool
  supports_verification : Bool
  supports_locks : Bool
  supports_batch_install : Bool
  supports_portable : Bool
  supports_hooks : Bool
  supports_build_from_source : Bool
  supports_declarative : Bool
  supports_snapshots : Bool
  supports_user_packages : Bool
  supports_system_packages : Bool
deriving DecidableEq, Repr

/-- The all-false `Capabilities::default()`. -/
def Capabilities.default : Capabilities :=
  ⟨false, false, false, false, false, false, false, false, false, false,
   false, false, false, false, false, false, false, false, false, false,
   false, false, false, false, false, false⟩

/-- Structure `AdapterMeta` from `manifest.rs`. -/
structure AdapterMeta where
  id : List Char
  name : List Char
  version : List Char
  description : List Char
  min_host_version : Option (List Char)
deriving DecidableEq, Repr

/-- Structure `PluginManifest` from `manifest.rs`. -/
structure PluginManifest where
  adapter : AdapterMeta
  capabilities : Capabilities
  permissions : Permissions
deriving DecidableEq, Repr

/-- Function `load_manifest` from `manifest.rs`: read the file (`read`
oracle), parse it (`parse` oracle standing for `toml::from_str`), then
reject an empty `adapter.id` or `adapter.name`. -/
def load_manifest (read : Except (List Char) (List Char))
    (parse : List Char → Except (List Char) PluginManifest) :
    Except (List Char) PluginManifest :=
  match read with
  | Except.error e =>
    Except.error ("Failed to read manifest: ".data ++ e)
  | Except.ok content =>
    match parse content with
    | Except.error e =>
      Except.error ("Failed to parse manifest: ".data ++ e)
    | Except.ok manifest =>
      if manifest.adapter.id = [] then
        Except.error "Manifest missing adapter.id".data
      else if manifest.adapter.name = [] then
        Except.error "Manifest missing adapter.name".data
      else
        Except.ok manifest

/-- One directory entry seen by `discover_plugins`, with the
filesystem facts and file contents it consults: whether the entry is a
directory, whether `manifest.toml` and `plugin.wasm` exist in it, the
outcome of reading `manifest.toml`, and TOML parsing. -/
structure PluginDirEntry where
  path : List Char
  is_dir : Bool
  has_manifest : Bool
  has_wasm : Bool
  manifest_read : Except (List Char) (List Char)
  manifest_parse : List Char → Except (List Char) PluginManifest

/-- The inner entry loop of `discover_plugins` over one search
directory: skip non-directories, skip entries missing `manifest.toml`
or `plugin.wasm`, and on a manifest load failure log a warning and
skip just that entry. -/
def discoverDir : List PluginDirEntry → List (List Char × PluginManifest)
  | [] => []
  | e :: rest =>
    if e.is_dir = false then discoverDir rest
    else if e.has_manifest = false ∨ e.has_wasm = false then discoverDir rest
    else
      match load_manifest e.manifest_read e.manifest_parse with
      | Except.ok manifest => (e.path, manifest) :: discoverDir rest
      | Except.error _ => discoverDir rest

/-- Function `discover_plugins`: scan the ordered search directories; a search
path that is not a directory or cannot be listed (`none`) is skipped. -/
def discover_plugins (dirs : List (Option (List PluginDirEntry))) :
    List (List Char × PluginManifest) :=
  match dirs with
  | [] => []
  | d :: rest =>
    (match d with
     | some entries => discoverDir entries
     | none => []) ++ discover_plugins rest

/-! ## Helper lemmas about the path model -/

/-- The function `splitSlash` always yields at least one segment. -/
theorem splitSlash_ne_nil (l : List Char) : splitSlash l ≠ [] := by
  cases l with
  | nil => simp [splitSlash]
  | cons c rest =>
    simp only [splitSlash]
    cases splitSlash rest with
    | nil => simp
    | cons seg segs =>
      by_cases hc : c = '/' <;> simp [hc]

/-- Unfolding equation of `splitSlash` on a cons cell. -/
theorem splitSlash_cons (c : Char) (rest : List Char) :
    splitSlash (c :: rest) =
      match splitSlash rest with
      | [] => [[]]
      | seg :: segs => if c = '/' then [] :: seg :: segs
                       else (c :: seg) :: segs := rfl

/-- The first segment of `splitSlash l` starts the string `l`. -/
theorem splitSlash_head_leads :
    ∀ (l : List Char) (seg : Seg) (segs : List Seg),
      splitSlash l = seg :: segs → seg <+: l := by
  intro l
  induction l with
  | nil =>
    intro seg segs h
    simp [splitSlash] at h
    simp [h.1]
  | cons c rest ih =>
    intro seg segs h
    rw [splitSlash_cons] at h
    cases hr : splitSlash rest with
    | nil => exact absurd hr (splitSlash_ne_nil rest)
    | cons s ss =>
      rw [hr] at h
      by_cases hc : c = '/'
      · simp [hc] at h
        simp [h.1]
      · simp [hc] at h
        obtain ⟨h1, _⟩ := h
        subst h1
        obtain ⟨t, ht⟩ := ih s ss hr
        exact ⟨t, by rw [List.cons_append, ht]⟩

/-- A contiguous occurrence inside `l` is one inside `c :: l` too. -/
theorem occurs_cons_step {g : Seg} {c : Char} {l : List Char}
    (h : g <:+: l) : g <:+: c :: l := by
  obtain ⟨u, v, huv⟩ := h
  refine ⟨c :: u, v, ?_⟩
  simp only [List.cons_append]
  rw [huv]

/-- Every segment produced by `splitSlash` occurs contiguously inside
the split string. -/
theorem mem_splitSlash_occurs :
    ∀ {l : List Char} {g : Seg}, g ∈ splitSlash l → g <:+: l := by
  intro l
  induction l with
  | nil =>
    intro g h
    simp [splitSlash] at h
    simp [h]
  | cons c rest ih =>
    intro g h
    rw [splitSlash_cons] at h
    cases hr : splitSlash rest with
    | nil => exact absurd hr (splitSlash_ne_nil rest)
    | cons s ss =>
      rw [hr] at h
      by_cases hc : c = '/'
      · simp [hc] at h
        rcases h with h | h | h
        · simp [h]
        · subst h
          exact occurs_cons_step (ih (by rw [hr]; exact List.mem_cons_self g ss))
        · exact occurs_cons_step (ih (by rw [hr]; exact List.mem_cons_of_mem s h))
      · simp [hc] at h
        rcases h with h | h
        · subst h
          obtain ⟨t, ht⟩ := splitSlash_head_leads rest s ss hr
          refine ⟨[], t, ?_⟩
          simp only [List.nil_append, List.cons_append]
          rw [ht]
        · exact occurs_cons_step (ih (by rw [hr]; exact List.mem_cons_of_mem s h))

/-- Normalization `components` is `componentsBody` with at most one leading root or
current-directory marker. -/
theorem components_shape (s : List Char) :
    components s = componentsBody s ∨
    components s = Component.rootDir :: componentsBody s ∨
    components s = Component.curDir :: componentsBody s := by
  unfold components
  by_cases habs : isAbsolute s = true
  · simp [habs]
  · simp [habs]
    cases pathSegs s with
    | nil => simp
    | cons g gs => by_cases hg : g = ['.'] <;> simp [hg]

/-- A `ParentDir` component can only come from a literal `".."`
segment of the string. -/
theorem parentDir_mem_segs {s : List Char}
    (h : Component.parentDir ∈ components s) : ['.', '.'] ∈ pathSegs s := by
  have hbody : Component.parentDir ∈ componentsBody s := by
    rcases components_shape s with hs | hs | hs <;> rw [hs] at h
    · exact h
    · simpa using h
    · simpa using h
  obtain ⟨g, hgmem, hgec⟩ := List.mem_map.mp hbody
  have hge : g = ['.', '.'] := by
    by_contra hne
    simp [segComp, hne] at hgec
  subst hge
  exact (List.mem_filter.mp hgmem).1

/-- A string with a `".."` segment contains `".."` as a substring, so
the guard `path_str.contains("..")` fires. -/
theorem hasDotDot_of_parentDir {s : List Char}
    (h : Component.parentDir ∈ components s) : hasDotDot s = true := by
  have hmem : ['.', '.'] ∈ splitSlash s :=
    (List.mem_filter.mp (parentDir_mem_segs h)).1
  have hocc : ['.', '.'] <:+: s := mem_splitSlash_occurs hmem
  simpa [hasDotDot] using hocc

/-! ## C1 -/

/-- C1: for every permission state and every requested path containing
a parent-directory (`".."`) segment, `validate_path` denies with the
traversal error, independent of the filesystem permission list and of
everything else in the string. -/
theorem validate_path_rejects_parent_segment (st : HostState)
    (home : Option (List Char)) (path : List Char)
    (h : Component.parentDir ∈ components path) :
    validate_path st home path = Except.error (traversalMsg path) := by
  simp [validate_path, hasDotDot_of_parentDir h]

/-- Concrete instantiation of C1 at `path = "../etc"`. -/
theorem validate_path_rejects_parent_segment_witness :
    Component.parentDir ∈ components "../etc".data ∧
      validate_path (HostState.new none "x".data ⟨true, ["/".data], []⟩)
        none "../etc".data = Except.error (traversalMsg "../etc".data) :=
  ⟨by decide,
   validate_path_rejects_parent_segment
     (HostState.new none "x".data ⟨true, ["/".data], []⟩) none "../etc".data
     (by decide)⟩

/-! ## C2 -/

/-- C2: a `".."`-free request whose resolution (relative requests are
resolved against the private data directory) lies inside the private
data directory is accepted, whatever the filesystem permission list
(in particular when it is empty). -/
theorem validate_path_accepts_data_dir (st : HostState)
    (home : Option (List Char)) (path : List Char)
    (hno : ¬ (['.', '.'] <:+: path))
    (hin : pathStartsWith (resolvePath st path) st.data_dir = true) :
    validate_path st home path = Except.ok (resolvePath st path) := by
  simp [validate_path, hasDotDot, hno, hin]

/-- Concrete instantiation of C2: a relative request under an empty
filesystem list, with `HOME` unset. -/
theorem validate_path_accepts_data_dir_witness :
    ¬ (['.', '.'] <:+: "notes/a.txt".data) ∧
    pathStartsWith
      (resolvePath (HostState.new none "x".data ⟨false, [], []⟩) "notes/a.txt".data)
      (HostState.new none "x".data ⟨false, [], []⟩).data_dir = true ∧
    validate_path (HostState.new none "x".data ⟨false, [], []⟩) none
        "notes/a.txt".data =
      Except.ok (resolvePath (HostState.new none "x".data ⟨false, [], []⟩)
        "notes/a.txt".data) :=
  ⟨by decide, by decide,
   validate_path_accepts_data_dir (HostState.new none "x".data ⟨false, [], []⟩)
     none "notes/a.txt".data (by decide) (by decide)⟩

/-! ## C3 -/

/-- The filesystem loop of `validate_path` succeeds exactly when some
permitted entry expands (home-shorthand resolved against `home`) to a
component prefix of the resolved path. -/
theorem fsLoopMatch_iff (home : Option (List Char)) (resolved : List Char) :
    ∀ fs : List (List Char),
      fsLoopMatch home resolved fs = true ↔
        ∃ allowed ∈ fs, ∃ ap, expandAllowed home allowed = some ap ∧
          pathStartsWith resolved ap = true := by
  intro fs
  induction fs with
  | nil => simp [fsLoopMatch]
  | cons a rest ih =>
    unfold fsLoopMatch
    cases hea : expandAllowed home a with
    | some ap =>
      simp only [Bool.or_eq_true, ih]
      constructor
      · rintro (h | ⟨al, hal, ap', he', hs'⟩)
        · exact ⟨a, List.mem_cons_self a rest, ap, hea, h⟩
        · exact ⟨al, List.mem_cons_of_mem a hal, ap', he', hs'⟩
      · rintro ⟨al, hal, ap', he', hs'⟩
        rcases List.mem_cons.mp hal with heq | hmem
        · subst heq
          rw [hea] at he'
          injection he' with hap
          subst hap
          exact Or.inl hs'
        · exact Or.inr ⟨al, hmem, ap', he', hs'⟩
    | none =>
      rw [ih]
      constructor
      · rintro ⟨al, hal, ap', he', hs'⟩
        exact ⟨al, List.mem_cons_of_mem a hal, ap', he', hs'⟩
      · rintro ⟨al, hal, ap', he', hs'⟩
        rcases List.mem_cons.mp hal with heq | hmem
        · subst heq
          rw [hea] at he'
          exact absurd he' (by simp)
        · exact ⟨al, hmem, ap', he', hs'⟩

/-- C3: for a `".."`-free request resolving outside the private data
directory, `validate_path` accepts exactly when some permitted prefix,
after `~/` expansion against the home directory, is a component prefix
of the resolved path; with no match it denies with the error naming
the plugin id. -/
theorem validate_path_outside_iff (st : HostState)
    (home : Option (List Char)) (path : List Char)
    (hno : ¬ (['.', '.'] <:+: path))
    (hout : pathStartsWith (resolvePath st path) st.data_dir = false) :
    (validate_path st home path = Except.ok (resolvePath st path) ↔
      ∃ allowed ∈ st.permissions.filesystem, ∃ ap,
        expandAllowed home allowed = some ap ∧
        pathStartsWith (resolvePath st path) ap = true) ∧
    ((¬ ∃ allowed ∈ st.permissions.filesystem, ∃ ap,
        expandAllowed home allowed = some ap ∧
        pathStartsWith (resolvePath st path) ap = true) →
      validate_path st home path =
        Except.error (pathDeniedMsg st.adapter_id path)) := by
  constructor
  · rw [← fsLoopMatch_iff home (resolvePath st path) st.permissions.filesystem]
    by_cases hm : fsLoopMatch home (resolvePath st path)
        st.permissions.filesystem = true
    · simp [validate_path, hasDotDot, hno, hout, hm]
    · simp [validate_path, hasDotDot, hno, hout, hm]
  · intro hnone
    rw [← fsLoopMatch_iff home (resolvePath st path) st.permissions.filesystem]
      at hnone
    have hm : fsLoopMatch home (resolvePath st path)
        st.permissions.filesystem = false := by
      revert hnone
      cases fsLoopMatch home (resolvePath st path) st.permissions.filesystem <;>
        simp
    simp [validate_path, hasDotDot, hno, hout, hm]

/-- Concrete instantiation of C3: an absolute request outside the data
directory matched by the permitted prefix `"/opt"`. -/
theorem validate_path_outside_iff_witness :
    ¬ (['.', '.'] <:+: "/opt/a".data) ∧
    pathStartsWith
      (resolvePath (HostState.new none "x".data ⟨false, ["/opt".data], []⟩)
        "/opt/a".data)
      (HostState.new none "x".data ⟨false, ["/opt".data], []⟩).data_dir = false ∧
    (validate_path (HostState.new none "x".data ⟨false, ["/opt".data], []⟩)
        none "/opt/a".data =
      Except.ok (resolvePath
        (HostState.new none "x".data ⟨false, ["/opt".data], []⟩) "/opt/a".data) ↔
      ∃ allowed ∈ (HostState.new none "x".data
          ⟨false, ["/opt".data], []⟩).permissions.filesystem, ∃ ap,
        expandAllowed none allowed = some ap ∧
        pathStartsWith (resolvePath
          (HostState.new none "x".data ⟨false, ["/opt".data], []⟩)
          "/opt/a".data) ap = true) :=
  ⟨by decide, by decide,
   (validate_path_outside_iff
     (HostState.new none "x".data ⟨false, ["/opt".data], []⟩) none "/opt/a".data
     (by decide) (by decide)).1⟩

/-! ## C9 -/

/-- C9: permitted prefixes match whole path components, not character
strings: with the single permitted prefix `"/opt/data"`, the request
`"/opt/data/file"` is accepted for every permission state, while
`"/opt/database"` is denied whenever it does not fall inside the
private data directory. -/
theorem prefix_match_is_component_wise (st : HostState)
    (home : Option (List Char))
    (hfs : st.permissions.filesystem = ["/opt/data".data]) :
    validate_path st home "/opt/data/file".data =
      Except.ok "/opt/data/file".data ∧
    (pathStartsWith "/opt/database".data st.data_dir = false →
      validate_path st home "/opt/database".data =
        Except.error (pathDeniedMsg st.adapter_id "/opt/database".data)) := by
  have habs1 : isAbsolute "/opt/data/file".data = true := by decide
  have habs2 : isAbsolute "/opt/database".data = true := by decide
  have hres1 : resolvePath st "/opt/data/file".data = "/opt/data/file".data := by
    simp [resolvePath, habs1]
  have hres2 : resolvePath st "/opt/database".data = "/opt/database".data := by
    simp [resolvePath, habs2]
  have hno1 : hasDotDot "/opt/data/file".data = false := by decide
  have hno2 : hasDotDot "/opt/database".data = false := by decide
  have hstrip : stripPrefixStr "~/".data "/opt/data".data = none := by decide
  have hexp : expandAllowed home "/opt/data".data = some "/opt/data".data := by
    simp [expandAllowed, hstrip]
  have hsw1 : pathStartsWith "/opt/data/file".data "/opt/data".data = true := by
    decide
  have hsw2 : pathStartsWith "/opt/database".data "/opt/data".data = false := by
    decide
  constructor
  · cases hd : pathStartsWith "/opt/data/file".data st.data_dir with
    | true => simp [validate_path, hno1, hres1, hd]
    | false => simp [validate_path, hno1, hres1, hd, hfs, fsLoopMatch, hexp, hsw1]
  · intro hd
    simp [validate_path, hno2, hres2, hd, hfs, fsLoopMatch, hexp, hsw2]

/-- Concrete instantiation of C9 with `HOME` unset, so the data dir is
under `/tmp` and `"/opt/database"` lies outside it. -/
theorem prefix_match_is_component_wise_witness :
    (HostState.new none "x".data
        ⟨false, ["/opt/data".data], []⟩).permissions.filesystem =
      ["/opt/data".data] ∧
    validate_path (HostState.new none "x".data ⟨false, ["/opt/data".data], []⟩)
        none "/opt/data/file".data = Except.ok "/opt/data/file".data ∧
    pathStartsWith "/opt/database".data
      (HostState.new none "x".data ⟨false, ["/opt/data".data], []⟩).data_dir
      = false ∧
    validate_path (HostState.new none "x".data ⟨false, ["/opt/data".data], []⟩)
        none "/opt/database".data =
      Except.error (pathDeniedMsg "x".data "/opt/database".data) :=
  ⟨rfl,
   (prefix_match_is_component_wise
     (HostState.new none "x".data ⟨false, ["/opt/data".data], []⟩) none rfl).1,
   by decide,
   (prefix_match_is_component_wise
     (HostState.new none "x".data ⟨false, ["/opt/data".data], []⟩) none rfl).2
     (by decide)⟩

/-! ## C10 -/

/-- With no home directory, the loop outcome ignores every `~/`-headed
entry: filtering them out of the permission list changes nothing. -/
theorem fsLoopMatch_none_filter (resolved : List Char) :
    ∀ fs : List (List Char),
      fsLoopMatch none resolved fs =
        fsLoopMatch none resolved
          (fs.filter (fun a => (stripPrefixStr "~/".data a).isNone)) := by
  intro fs
  induction fs with
  | nil => rfl
  | cons a rest ih =>
    cases hstrip : stripPrefixStr "~/".data a with
    | some stripped =>
      have hexp : expandAllowed none a = none := by
        simp [expandAllowed, hstrip]
      simp [List.filter_cons, hstrip, fsLoopMatch, hexp, ih]
    | none =>
      have hexp : expandAllowed none a = some a := by
        simp [expandAllowed, hstrip]
      simp [List.filter_cons, hstrip, fsLoopMatch, hexp, ih]

/-- C10: when `HOME` is unset, a permitted prefix beginning with `~/`
is silently skipped (its expansion yields nothing, it never matches),
and the result of `validate_path` is exactly what it would be with
those entries removed; entries not beginning with `~/` are unaffected. -/
theorem tilde_entries_skipped_without_home (st : HostState) (path : List Char) :
    (∀ a stripped, stripPrefixStr "~/".data a = some stripped →
      expandAllowed none a = none) ∧
    validate_path st none path =
      validate_path
        { st with permissions :=
            { st.permissions with
                filesystem := st.permissions.filesystem.filter
                  (fun a => (stripPrefixStr "~/".data a).isNone) } }
        none path := by
  constructor
  · intro a stripped hstrip
    simp [expandAllowed, hstrip]
  · simp only [validate_path, resolvePath]
    rw [← fsLoopMatch_none_filter]

/-- Concrete instantiation of C10: an absolute request, one `~/` entry
and one literal entry, `HOME` unset. -/
theorem tilde_entries_skipped_without_home_witness :
    stripPrefixStr "~/".data "~/dl".data = some "dl".data ∧
    expandAllowed none "~/dl".data = none ∧
    validate_path
        (HostState.new none "x".data
          ⟨false, ["~/dl".data, "/srv".data], []⟩) none "/srv/a".data =
      validate_path
        { HostState.new none "x".data ⟨false, ["~/dl".data, "/srv".data], []⟩
            with permissions :=
            { (HostState.new none "x".data
                ⟨false, ["~/dl".data, "/srv".data], []⟩).permissions with
                filesystem :=
                  (HostState.new none "x".data
                    ⟨false, ["~/dl".data, "/srv".data], []⟩).permissions.filesystem.filter
                    (fun a => (stripPrefixStr "~/".data a).isNone) } }
        none "/srv/a".data :=
  ⟨by decide,
   (tilde_entries_skipped_without_home
     (HostState.new none "x".data ⟨false, ["~/dl".data, "/srv".data], []⟩)
     "/srv/a".data).1 "~/dl".data "dl".data (by decide),
   (tilde_entries_skipped_without_home
     (HostState.new none "x".data ⟨false, ["~/dl".data, "/srv".data], []⟩)
     "/srv/a".data).2⟩

/-! ## C4 -/

/-- C4: with the network permission flag false, the registered
`host_http_get` function returns the null sentinel `0` and the network
oracle is never consulted — the denial precedes even the URL read. -/
theorem http_get_denied_without_network (st : HostState)
    (readUrl : Except (List Char) (List Char))
    (net : List Char → Except (List Char) HttpResponse)
    (writeBack : HttpResponse → Except (List Char) (Nat × Nat))
    (h : st.permissions.network = false) :
    host_http_get st readUrl net writeBack = (0, false) := by
  simp [host_http_get, http_get_impl, has_network_permission, h]

/-- Concrete instantiation of C4: a ready URL and a reachable server,
still denied. -/
theorem http_get_denied_without_network_witness :
    (HostState.new none "x".data ⟨false, [], []⟩).permissions.network = false ∧
    host_http_get (HostState.new none "x".data ⟨false, [], []⟩)
        (Except.ok "http://e.com".data)
        (fun _ => Except.ok ⟨200, "hi".data⟩)
        (fun _ => Except.ok (8, 2)) = (0, false) :=
  ⟨rfl,
   http_get_denied_without_network (HostState.new none "x".data ⟨false, [], []⟩)
     (Except.ok "http://e.com".data) (fun _ => Except.ok ⟨200, "hi".data⟩)
     (fun _ => Except.ok (8, 2)) rfl⟩

/-! ## C6 -/

/-- C6: decoding the fat pointer built from a 32-bit offset and a
32-bit length gives back exactly the original pair. -/
theorem fat_ptr_roundtrip (ptr len : Nat) (hp : ptr < 2 ^ 32)
    (hl : len < 2 ^ 32) :
    decode_fat_ptr (encode_fat_ptr ptr len) = (ptr, len) := by
  unfold encode_fat_ptr decode_fat_ptr
  rw [Nat.mod_eq_of_lt hp, Nat.mod_eq_of_lt hl]
  have h64 : ptr * 2 ^ 32 + len < 2 ^ 64 := by omega
  rw [Nat.mod_eq_of_lt h64]
  simp only [Prod.mk.injEq]
  omega

/-- Concrete instantiation of C6 at `(offset, length) = (7, 9)`. -/
theorem fat_ptr_roundtrip_witness :
    7 < 2 ^ 32 ∧ 9 < 2 ^ 32 ∧ decode_fat_ptr (encode_fat_ptr 7 9) = (7, 9) :=
  ⟨by norm_num, by norm_num, fat_ptr_roundtrip 7 9 (by norm_num) (by norm_num)⟩

/-! ## C7 -/

/-- Decisions of `validate_command` only ever looks at the basename of its
argument. -/
theorem validate_command_congr (st : HostState)
    (which : List Char → Option (List Char)) (c1 c2 : List Char)
    (h : basenameOf c1 = basenameOf c2) :
    validate_command st which c1 = validate_command st which c2 := by
  simp [validate_command, h]

/-- C7: with the allowlist exactly `["foo"]`, `validate_command` gives
the same decision for `"foo"` and `"/usr/bin/foo"`, because both are
reduced to the basename `"foo"` before the allowlist test. -/
theorem validate_command_path_independent (st : HostState)
    (which : List Char → Option (List Char))
    (hfs : st.permissions.exec_commands = ["foo".data]) :
    validate_command st which "foo".data =
      validate_command st which "/usr/bin/foo".data :=
  validate_command_congr st which "foo".data "/usr/bin/foo".data (by decide)

/-- Concrete instantiation of C7: both forms accepted and resolved to
the same absolute path. -/
theorem validate_command_path_independent_witness :
    (HostState.new none "x".data
        ⟨false, [], ["foo".data]⟩).permissions.exec_commands =
      ["foo".data] ∧
    validate_command (HostState.new none "x".data ⟨false, [], ["foo".data]⟩)
        (fun b => some ('/' :: 'u' :: 's' :: 'r' :: '/' :: 'b' :: 'i' :: 'n' :: '/' :: b))
        "foo".data =
      validate_command (HostState.new none "x".data ⟨false, [], ["foo".data]⟩)
        (fun b => some ('/' :: 'u' :: 's' :: 'r' :: '/' :: 'b' :: 'i' :: 'n' :: '/' :: b))
        "/usr/bin/foo".data :=
  ⟨rfl,
   validate_command_path_independent
     (HostState.new none "x".data ⟨false, [], ["foo".data]⟩)
     (fun b => some ('/' :: 'u' :: 's' :: 'r' :: '/' :: 'b' :: 'i' :: 'n' :: '/' :: b))
     rfl⟩

/-! ## C5 -/

/-- A concrete execution context whose guest module provides no
exports at all (instantiation itself succeeds). -/
def noExportEnv : ModuleEnv Unit :=
  { instantiate := Except.ok ()
    exports := []
    call0 := fun _ => Except.error []
    call2 := fun _ _ => Except.error []
    hasMemory := true
    readString := fun _ _ => Except.error []
    writeString := fun _ => Except.ok (1, 1)
    parse := fun _ => Except.ok () }

/-- Counterexample to C5: calling the absent `sync` export yields
`AdapterError.PluginError` naming the missing export, which is not the
`NotSupported` error of the taxonomy. -/
theorem missing_export_not_NotSupported :
    call_no_args Unit noExportEnv "sync".data =
      Except.error (AdapterError.PluginError (missingExportMsg "sync".data)) ∧
    Except.error (AdapterError.PluginError (missingExportMsg "sync".data)) ≠
      (Except.error AdapterError.NotSupported : Except AdapterError Unit) := by
  constructor
  · decide
  · decide

/-- C5 (amended): an export the guest does not provide surfaces to the
caller as a typed `AdapterError.PluginError` naming the missing export
(`"Missing export '…'"`), from both `call_no_args` and
`call_with_json` — an error return, not a crash, but not the
`NotSupported` variant. -/
theorem missing_export_is_plugin_error (T : Type) (env : ModuleEnv T)
    (name : List Char) (hinst : env.instantiate = Except.ok ())
    (hmiss : name ∉ env.exports) :
    call_no_args T env name =
      Except.error (AdapterError.PluginError (missingExportMsg name)) ∧
    (∀ j pl, env.writeString j = Except.ok pl →
      call_with_json T env name (Except.ok j) =
        Except.error (AdapterError.PluginError (missingExportMsg name))) ∧
    AdapterError.PluginError (missingExportMsg name) ≠
      AdapterError.NotSupported := by
  refine ⟨?_, ?_, ?_⟩
  · simp [call_no_args, hinst, hmiss]
  · intro j pl hw
    simp [call_with_json, hinst, hw, hmiss]
  · intro hcontra
    cases hcontra

/-- Concrete instantiation of the amended C5 on `noExportEnv`. -/
theorem missing_export_is_plugin_error_witness :
    noExportEnv.instantiate = Except.ok () ∧
    "sync".data ∉ noExportEnv.exports ∧
    call_no_args Unit noExportEnv "sync".data =
      Except.error (AdapterError.PluginError (missingExportMsg "sync".data)) :=
  ⟨rfl, by decide,
   (missing_export_is_plugin_error Unit noExportEnv "sync".data rfl
     (by decide)).1⟩

/-! ## C8 -/

/-- A well-formed manifest for the discovery scenario. -/
def alphaManifest : PluginManifest :=
  { adapter :=
      { id := "alpha".data
        name := "Alpha".data
        version := "1.0".data
        description := []
        min_host_version := none }
    capabilities := Capabilities.default
    permissions := { network := false, filesystem := [], exec_commands := [] } }

/-- A plugin directory containing both `manifest.toml` and
`plugin.wasm`, with a manifest that loads. -/
def completeEntry : PluginDirEntry :=
  { path := "/plugins/alpha".data
    is_dir := true
    has_manifest := true
    has_wasm := true
    manifest_read := Except.ok "toml".data
    manifest_parse := fun _ => Except.ok alphaManifest }

/-- A plugin directory whose `plugin.wasm` is missing. -/
def noWasmEntry : PluginDirEntry :=
  { path := "/plugins/beta".data
    is_dir := true
    has_manifest := true
    has_wasm := false
    manifest_read := Except.ok "toml".data
    manifest_parse := fun _ => Except.ok alphaManifest }

/-- Unfolding equation of `discoverDir` on a cons cell. -/
theorem discoverDir_cons (e : PluginDirEntry) (rest : List PluginDirEntry) :
    discoverDir (e :: rest) =
      if e.is_dir = false then discoverDir rest
      else if e.has_manifest = false ∨ e.has_wasm = false then discoverDir rest
      else
        match load_manifest e.manifest_read e.manifest_parse with
        | Except.ok manifest => (e.path, manifest) :: discoverDir rest
        | Except.error _ => discoverDir rest := rfl

/-- C8: a subdirectory is a candidate only with both files present
(missing either skips it); a manifest whose load fails skips exactly
that entry and discovery goes on; and the scenario of one complete
plugin next to one missing its module yields exactly that one
plugin. -/
theorem discovery_skips_incomplete_and_bad (e : PluginDirEntry)
    (rest : List PluginDirEntry) :
    (e.has_manifest = false ∨ e.has_wasm = false →
      discoverDir (e :: rest) = discoverDir rest) ∧
    (∀ err, load_manifest e.manifest_read e.manifest_parse = Except.error err →
      discoverDir (e :: rest) = discoverDir rest) ∧
    discover_plugins [some [completeEntry, noWasmEntry]] =
      [(completeEntry.path, alphaManifest)] := by
  refine ⟨?_, ?_, ?_⟩
  · intro h
    rw [discoverDir_cons]
    rcases h with h | h <;> cases hd : e.is_dir <;> simp [h, hd]
  · intro err herr
    rw [discoverDir_cons, herr]
    cases hd : e.is_dir with
    | false => simp
    | true =>
      cases hm : e.has_manifest with
      | false => simp
      | true =>
        cases hw : e.has_wasm with
        | false => simp [hm, hw]
        | true => simp [hm, hw]
  · decide

/-- Concrete instantiation of C8's conditional parts on the
incomplete-entry scenario. -/
theorem discovery_skips_incomplete_and_bad_witness :
    (noWasmEntry.has_manifest = false ∨ noWasmEntry.has_wasm = false) ∧
    discoverDir [noWasmEntry] = discoverDir [] :=
  ⟨Or.inr rfl,
   (discovery_skips_incomplete_and_bad noWasmEntry []).1 (Or.inr rfl)⟩

end Aeris
